import Mathlib

/-!
Verification of the SVG post-processing pipeline of the prompt-to-svg feature
(`src/prompt-to-svg/operations.ts`, `image-processing.ts`, `ai-connection.ts`).

Strings are embedded as `List Char`.  The JavaScript string methods used by the
source (`trim`, `includes`, `startsWith`, `endsWith`, `replace` with a literal
pattern or with the specific regexes appearing in the source) are modelled by
executable functions below, each with the exact semantics of the call site.
-/

set_option maxHeartbeats 1000000
set_option maxRecDepth 10000

/-- Shorthand: the character list of a string literal. -/
def str (s : String) : List Char := s.toList

/-- The JavaScript whitespace set used by `String.prototype.trim`
(TAB, LF, VT, FF, CR, SP, NBSP, LS, PS, BOM). -/
def isJsWs (c : Char) : Bool :=
  (9 ≤ c.toNat && c.toNat ≤ 13) || c = ' ' || c.toNat = 160 ||
    c.toNat = 0x2028 || c.toNat = 0x2029 || c.toNat = 0xFEFF

/-- JavaScript `s.trim()`: drop leading and trailing whitespace. -/
def jsTrim (s : List Char) : List Char :=
  ((s.dropWhile isJsWs).reverse.dropWhile isJsWs).reverse

/-- ASCII lower-casing, used to model the `i` flag of the source's regexes. -/
def lowerAscii (c : Char) : Char :=
  if 'A' ≤ c && c ≤ 'Z' then Char.ofNat (c.toNat + 32) else c

/-- The character class `\w` of JavaScript regexes: `[A-Za-z0-9_]`. -/
def isWordChar (c : Char) : Bool :=
  ('a' ≤ c && c ≤ 'z') || ('A' ≤ c && c ≤ 'Z') || ('0' ≤ c && c ≤ '9') || c = '_'

/-- Index of the first occurrence of `p` as a contiguous substring of `s`
(`none` when there is no occurrence).  Models `String.prototype.indexOf ≥ 0`
and the leftmost-match rule of `String.prototype.replace`. -/
def firstOcc (p : List Char) (s : List Char) : Option Nat :=
  if p <+: s then some 0
  else
    match s with
    | [] => none
    | _ :: t => (firstOcc p t).map (· + 1)

/-- A successful `firstOcc` search really is an occurrence. -/
theorem firstOcc_some_prefix_drop {p s : List Char} {i : Nat}
    (h : firstOcc p s = some i) : p <+: s.drop i := by
  induction s generalizing i with
  | nil =>
    unfold firstOcc at h
    by_cases hc : p <+: ([] : List Char)
    · simp only [hc, if_true] at h
      cases h
      simpa using hc
    · simp only [hc, if_false] at h
      exact Option.noConfusion h
  | cons a t ih =>
    unfold firstOcc at h
    by_cases hc : p <+: a :: t
    · simp only [hc, if_true] at h
      cases h
      simpa using hc
    · simp only [hc, if_false] at h
      match h2 : firstOcc p t with
      | none => rw [h2] at h; simp at h
      | some j =>
        rw [h2] at h
        have hji : j + 1 = i := by simpa using h
        subst hji
        simpa using ih h2

/-- First index satisfying a predicate (`Array.prototype.findIndex` style). -/
def firstIdxP (p : Char → Bool) : List Char → Option Nat
  | [] => none
  | c :: t => if p c then some 0 else (firstIdxP p t).map (· + 1)

/-- JavaScript `s.replace(pat, r)` with a literal string pattern:
replace the first occurrence only. -/
def replaceFirstSub (p r s : List Char) : List Char :=
  match firstOcc p s with
  | none => s
  | some i => s.take i ++ r ++ s.drop (i + p.length)

/-- Fuel-indexed worker for `removeAllSub`.  Each step deletes one occurrence,
which shortens the text by at least one character, so fuel `s.length` is always
sufficient; the fuel only makes the recursion structural. -/
def removeAllGo (p : List Char) : Nat → List Char → List Char
  | 0, s => s
  | fuel + 1, s =>
    if p = [] then s
    else
      match firstOcc p s with
      | none => s
      | some i => s.take i ++ removeAllGo p fuel (s.drop (i + p.length))

/-- JavaScript `s.replace(/pat/g, '')` for a literal pattern: delete every
occurrence, scanning left to right without overlap. -/
def removeAllSub (p : List Char) (s : List Char) : List Char :=
  removeAllGo p s.length s

/-- Index of the first case-insensitive occurrence, modelling the `i` flag. -/
def firstOccCI (p s : List Char) : Option Nat :=
  firstOcc (p.map lowerAscii) (s.map lowerAscii)

/-- Index of the last occurrence of `p` in `s`, as an Option. -/
def lastOcc (p s : List Char) : Option Nat :=
  (((List.range (s.length + 1)).filter (fun i => decide (p <+: s.drop i)))).getLast?

/-- JavaScript `s.lastIndexOf(p)`: `-1` when absent. -/
def lastIndexOfJS (p s : List Char) : Int :=
  match lastOcc p s with
  | none => -1
  | some i => (i : Int)

theorem infix_iff_exists_drop {p s : List Char} : p <:+: s ↔ ∃ i, p <+: s.drop i := by
  constructor
  · rintro ⟨u, v, huv⟩
    refine ⟨u.length, ?_⟩
    rw [← huv, List.append_assoc, List.drop_left]
    exact List.prefix_append p v
  · rintro ⟨i, hi⟩
    exact (hi.isInfix).trans (List.drop_suffix i s).isInfix

theorem firstOcc_eq_none_iff {p s : List Char} : firstOcc p s = none ↔ ¬ p <:+: s := by
  induction s with
  | nil =>
    unfold firstOcc
    by_cases hc : p <+: ([] : List Char)
    · simp only [hc, if_true]
      simp only [List.prefix_nil] at hc
      subst hc
      simp
    · simp only [hc, if_false]
      simp only [List.infix_nil]
      constructor
      · intro _ hne
        exact hc (by simp [hne])
      · intro _
        trivial
  | cons a t ih =>
    unfold firstOcc
    by_cases hc : p <+: a :: t
    · simp only [hc, if_true]
      constructor
      · intro h
        exact Option.noConfusion h
      · intro h
        exact absurd hc.isInfix h
    · simp only [hc, if_false]
      rw [List.infix_cons_iff]
      constructor
      · intro h hor
        rcases hor with h1 | h2
        · exact hc h1
        · rcases h3 : firstOcc p t with _ | j
          · exact (ih.mp h3) h2
          · rw [h3] at h
            exact Option.noConfusion h
      · intro h
        have h2 : ¬ p <:+: t := fun hx => h (Or.inr hx)
        rw [ih.mpr h2]
        rfl

theorem prefix_of_prefix_append {p u v : List Char} (h : p <+: u ++ v)
    (hl : p.length ≤ u.length) : p <+: u := by
  have h2 := List.prefix_iff_eq_take.mp h
  rw [List.take_append_eq_append_take] at h2
  have hz : p.length - u.length = 0 := by omega
  rw [hz, List.take_zero, List.append_nil] at h2
  exact List.prefix_iff_eq_take.mpr h2

theorem infix_append_cases {p a b : List Char} (h : p <:+: a ++ b) :
    p <:+: a ∨ p <:+: b ∨
      ∃ k, 0 < k ∧ k < p.length ∧ p.take k <:+ a ∧ p.drop k <+: b := by
  rcases infix_iff_exists_drop.mp h with ⟨i, hi⟩
  by_cases hia : i < a.length
  · rw [List.drop_append_eq_append_drop] at hi
    have hz : i - a.length = 0 := by omega
    rw [hz, List.drop_zero] at hi
    by_cases hlen : p.length ≤ (a.drop i).length
    · left
      exact infix_iff_exists_drop.mpr ⟨i, prefix_of_prefix_append hi hlen⟩
    · right; right
      have hmin : (p.take (a.drop i).length).length = (a.drop i).length := by
        simp only [List.length_take]
        omega
      have h1 : p.take (a.drop i).length <+: a.drop i :=
        prefix_of_prefix_append (((List.take_prefix _ p)).trans hi) (le_of_eq hmin)
      have h2 : p.take (a.drop i).length = a.drop i := by
        have h3 := List.prefix_iff_eq_take.mp h1
        rw [hmin] at h3
        rw [h3, List.take_length]
      refine ⟨(a.drop i).length, ?_, ?_, ?_, ?_⟩
      · simp only [List.length_drop]
        omega
      · omega
      · rw [h2]
        exact List.drop_suffix i a
      · have h3 : a.drop i ++ p.drop (a.drop i).length <+: a.drop i ++ b := by
          have h4 : p.take (a.drop i).length ++ p.drop (a.drop i).length = p :=
            List.take_append_drop _ p
          rw [h2] at h4
          rw [h4]
          exact hi
        exact (List.prefix_append_right_inj (a.drop i)).mp h3
  · right; left
    rw [List.drop_append_eq_append_drop] at hi
    have hz : a.drop i = [] := List.drop_eq_nil_of_le (by omega)
    rw [hz, List.nil_append] at hi
    exact infix_iff_exists_drop.mpr ⟨i - a.length, hi⟩

theorem not_infix_append {p a b : List Char}
    (ha : ¬ p <:+: a) (hb : ¬ p <:+: b)
    (hs : ∀ k, 0 < k → k < p.length → ¬ (p.take k <:+ a ∧ p.drop k <+: b)) :
    ¬ p <:+: a ++ b := by
  intro h
  rcases infix_append_cases h with h1 | h2 | ⟨k, hk0, hk1, hka, hkb⟩
  · exact ha h1
  · exact hb h2
  · exact hs k hk0 hk1 ⟨hka, hkb⟩

theorem removeAllSub_absent {p s : List Char} (h : ¬ p <:+: s) :
    removeAllSub p s = s := by
  unfold removeAllSub
  cases hs : s.length with
  | zero => rfl
  | succ n =>
    unfold removeAllGo
    by_cases hp : p = []
    · simp [hp]
    · simp only [hp, if_false]
      rw [firstOcc_eq_none_iff.mpr h]

theorem dropWhile_idem (w : Char → Bool) (l : List Char) :
    (l.dropWhile w).dropWhile w = l.dropWhile w := by
  induction l with
  | nil => rfl
  | cons c t ih =>
    by_cases h : w c
    · rw [List.dropWhile_cons_of_pos h]
      exact ih
    · rw [List.dropWhile_cons_of_neg h, List.dropWhile_cons_of_neg h]

theorem dropWhile_head_not (w : Char → Bool) (l : List Char) {c : Char} {t : List Char}
    (h : l.dropWhile w = c :: t) : w c = false := by
  induction l with
  | nil => exact absurd h (by simp)
  | cons d l2 ih =>
    by_cases hd : w d
    · rw [List.dropWhile_cons_of_pos hd] at h
      exact ih h
    · rw [List.dropWhile_cons_of_neg hd] at h
      injection h with h1 _
      rw [← h1]
      exact Bool.eq_false_iff.mpr hd

theorem jsTrim_pre (s : List Char) : jsTrim s <+: s.dropWhile isJsWs := by
  have h2 : ((s.dropWhile isJsWs).reverse.dropWhile isJsWs) <:+ (s.dropWhile isJsWs).reverse :=
    List.dropWhile_suffix _
  unfold jsTrim
  rw [← List.reverse_suffix, List.reverse_reverse]
  exact h2

theorem jsTrim_within (s : List Char) : jsTrim s <:+: s :=
  (jsTrim_pre s).isInfix.trans (List.dropWhile_suffix isJsWs).isInfix

theorem infix_dropWhile_of_not (p s : List Char) (w : Char → Bool)
    (hp : ∀ c ∈ p, w c = false) (h : p <:+: s) : p <:+: s.dropWhile w := by
  induction s with
  | nil => simpa using h
  | cons c t ih =>
    by_cases hw : w c
    · rw [List.dropWhile_cons_of_pos hw]
      rcases List.infix_cons_iff.mp h with h1 | h2
      · rcases p with _ | ⟨d, p2⟩
        · exact List.nil_infix
        · rcases h1 with ⟨tl, htl⟩
          rw [List.cons_append] at htl
          injection htl with hd _
          have := hp d (by simp)
          rw [hd, hw] at this
          exact Bool.noConfusion this
      · exact ih h2
    · rw [List.dropWhile_cons_of_neg hw]
      exact h

theorem infix_jsTrim_of_no_ws {p s : List Char}
    (hp : ∀ c ∈ p, isJsWs c = false) (h : p <:+: s) : p <:+: jsTrim s := by
  unfold jsTrim
  have h1 := infix_dropWhile_of_not p s isJsWs hp h
  have h2 : p.reverse <:+: (s.dropWhile isJsWs).reverse := List.reverse_infix.mpr h1
  have hp2 : ∀ c ∈ p.reverse, isJsWs c = false := fun c hc => hp c (List.mem_reverse.mp hc)
  have h3 := infix_dropWhile_of_not p.reverse _ isJsWs hp2 h2
  have h4 := List.reverse_infix.mpr h3
  simpa using h4

theorem jsTrim_eq_self (t : List Char)
    (h1 : t.dropWhile isJsWs = t) (h2 : t.reverse.dropWhile isJsWs = t.reverse) :
    jsTrim t = t := by
  unfold jsTrim
  rw [h1, h2, List.reverse_reverse]

theorem jsTrim_idem (s : List Char) : jsTrim (jsTrim s) = jsTrim s := by
  apply jsTrim_eq_self
  · rcases ht : jsTrim s with _ | ⟨c, t2⟩
    · rfl
    · rcases (ht ▸ jsTrim_pre s) with ⟨x, hx⟩
      rw [List.cons_append] at hx
      have hc : isJsWs c = false := dropWhile_head_not isJsWs s hx.symm
      rw [List.dropWhile_cons_of_neg (by simp [hc])]
  · have hr : (jsTrim s).reverse = (s.dropWhile isJsWs).reverse.dropWhile isJsWs := by
      unfold jsTrim
      rw [List.reverse_reverse]
    rw [hr, dropWhile_idem]

/-- Fuel-indexed worker for `quoteFix`; fuel `s.length` is always sufficient
because every step consumes at least one character. -/
def quoteFixGo : Nat → List Char → List Char
  | 0, s => s
  | _ + 1, [] => []
  | fuel + 1, c :: t =>
    if isWordChar c = true then
      if (List.dropWhile isWordChar t).head? = some '=' then
        if List.takeWhile isWordChar ((List.dropWhile isWordChar t).tail) = [] then
          c :: quoteFixGo fuel t
        else
          List.takeWhile isWordChar (c :: t) ++
            '=' :: '"' ::
              (List.takeWhile isWordChar ((List.dropWhile isWordChar t).tail) ++
                '"' :: quoteFixGo fuel (List.dropWhile isWordChar ((List.dropWhile isWordChar t).tail)))
      else c :: quoteFixGo fuel t
    else c :: quoteFixGo fuel t

/-- JavaScript `s.replace(/(\w+)=(\w+)/g, '$1="$2"')` from `autoFixSvg`:
each maximal word-character run immediately followed by `=` and at least one
word character is rewritten with the value part put in double quotes; scanning
is left to right and matches do not overlap. -/
def quoteFix (s : List Char) : List Char := quoteFixGo s.length s

theorem word_tail_drop_le (t : List Char) :
    (List.dropWhile isWordChar ((List.dropWhile isWordChar t).tail)).length ≤ t.length := by
  have e1 : (List.dropWhile isWordChar ((List.dropWhile isWordChar t).tail)).length ≤
      ((List.dropWhile isWordChar t).tail).length :=
    (List.dropWhile_suffix _).length_le
  have e2 : ((List.dropWhile isWordChar t).tail).length =
      (List.dropWhile isWordChar t).length - 1 :=
    List.length_tail _
  have e3 : (List.dropWhile isWordChar t).length ≤ t.length :=
    (List.dropWhile_suffix _).length_le
  omega

/-- With enough fuel, the worker computes `quoteFix`. -/
theorem quoteFixGo_eq (fuel : Nat) : ∀ s : List Char, s.length ≤ fuel →
    quoteFixGo fuel s = quoteFix s := by
  induction fuel using Nat.strong_induction_on with
  | _ fuel ih =>
    intro s hs
    match fuel, s with
    | 0, s =>
      have : s = [] := List.length_eq_zero.mp (Nat.le_zero.mp hs)
      subst this
      rfl
    | fl + 1, [] => rfl
    | fl + 1, c :: t =>
      simp only [List.length_cons] at hs
      have ht : t.length ≤ fl := by omega
      have hd : (List.dropWhile isWordChar ((List.dropWhile isWordChar t).tail)).length ≤ fl :=
        le_trans (word_tail_drop_le t) ht
      show quoteFixGo (fl + 1) (c :: t) = quoteFixGo (t.length + 1) (c :: t)
      unfold quoteFixGo
      rw [ih fl (by omega) t ht, ih fl (by omega) _ hd,
        ih t.length (by omega) t (le_refl _),
        ih t.length (by omega) _ (word_tail_drop_le t)]

/-- One-step unfolding of `quoteFix`. -/
theorem quoteFix_cons (c : Char) (t : List Char) :
    quoteFix (c :: t) =
      if isWordChar c = true then
        if (List.dropWhile isWordChar t).head? = some '=' then
          if List.takeWhile isWordChar ((List.dropWhile isWordChar t).tail) = [] then
            c :: quoteFix t
          else
            List.takeWhile isWordChar (c :: t) ++
              '=' :: '"' ::
                (List.takeWhile isWordChar ((List.dropWhile isWordChar t).tail) ++
                  '"' :: quoteFix (List.dropWhile isWordChar ((List.dropWhile isWordChar t).tail)))
        else c :: quoteFix t
      else c :: quoteFix t := by
  show quoteFixGo (t.length + 1) (c :: t) = _
  unfold quoteFixGo
  rw [quoteFixGo_eq t.length t (le_refl _),
    quoteFixGo_eq t.length _ (word_tail_drop_le t)]

theorem takeWhile_append_head (w : Char → Bool) (t r : List Char)
    (hr : ∀ c, r.head? = some c → w c = false) :
    (t ++ r).takeWhile w = t.takeWhile w ∧ (t ++ r).dropWhile w = t.dropWhile w ++ r := by
  induction t with
  | nil =>
    simp only [List.nil_append, List.takeWhile_nil, List.dropWhile_nil]
    rcases r with _ | ⟨c, r2⟩
    · simp
    · have hc := hr c rfl
      constructor
      · rw [List.takeWhile_cons_of_neg (by simp [hc])]
      · rw [List.dropWhile_cons_of_neg (by simp [hc])]
  | cons d t2 ih =>
    by_cases hd : w d
    · simp only [List.cons_append, List.takeWhile_cons_of_pos hd,
        List.dropWhile_cons_of_pos hd]
      exact ⟨by rw [ih.1], ih.2⟩
    · simp [List.takeWhile_cons_of_neg hd, List.dropWhile_cons_of_neg hd]

theorem prefix_append_longer {p a b : List Char} (h : p <+: a ++ b)
    (hl : a.length ≤ p.length) : a <+: p ∧ p.drop a.length <+: b := by
  have h2 := List.prefix_iff_eq_take.mp h
  rw [List.take_append_eq_append_take, List.take_of_length_le hl] at h2
  constructor
  · exact ⟨_, h2.symm⟩
  · rw [h2, List.drop_left]
    exact List.take_prefix _ _

/-- `quoteFix` splits across an append whose right part begins with a
character that can occur in no match (not a word character and not `=`). -/
theorem quoteFix_append_aux (r : List Char)
    (hr : ∀ c, r.head? = some c → isWordChar c = false ∧ c ≠ '=') :
    ∀ (n : Nat) (t : List Char), t.length ≤ n →
      quoteFix (t ++ r) = quoteFix t ++ quoteFix r := by
  intro n
  induction n with
  | zero =>
    intro t ht
    have h0 : t = [] := List.length_eq_zero.mp (Nat.le_zero.mp ht)
    subst h0
    simp only [List.nil_append]
    rfl
  | succ n ih =>
    intro t ht
    match t with
    | [] =>
      simp only [List.nil_append]
      rfl
    | c :: t2 =>
      simp only [List.length_cons] at ht
      have ht2 : t2.length ≤ n := by omega
      have hw1 : ∀ c2, r.head? = some c2 → isWordChar c2 = false :=
        fun c2 hh => (hr c2 hh).1
      have happ := takeWhile_append_head isWordChar t2 r hw1
      rw [List.cons_append, quoteFix_cons, quoteFix_cons, happ.2]
      by_cases h : isWordChar c = true
      · simp only [h, if_true]
        rcases hdt : List.dropWhile isWordChar t2 with _ | ⟨e, d2⟩
        · simp only [List.nil_append, List.head?_nil]
          rcases hhr : r.head? with _ | c2
          · rw [if_neg (by simp), if_neg (by simp), ih t2 ht2, List.cons_append]
          · have hc2 := hr c2 hhr
            rw [if_neg (by simp [hc2.2]), if_neg (by simp), ih t2 ht2, List.cons_append]
        · simp only [List.cons_append, List.head?_cons]
          by_cases he : e = '='
          · subst he
            simp only [if_pos rfl, List.tail_cons]
            have happ2 := takeWhile_append_head isWordChar d2 r hw1
            rw [happ2.1, happ2.2]
            by_cases hw2 : List.takeWhile isWordChar d2 = []
            · rw [if_pos hw2, if_pos hw2, ih t2 ht2]
              simp
            · rw [if_neg hw2, if_neg hw2]
              have hlen : (List.dropWhile isWordChar d2).length ≤ n := by
                have e1 : (List.dropWhile isWordChar d2).length ≤ d2.length :=
                  (List.dropWhile_suffix _).length_le
                have e2 : ('=' :: d2).length ≤ t2.length := by
                  rw [← hdt]
                  exact (List.dropWhile_suffix _).length_le
                simp only [List.length_cons] at e2
                omega
              rw [ih (List.dropWhile isWordChar d2) hlen]
              rw [List.takeWhile_cons_of_pos h, List.takeWhile_cons_of_pos h, happ.1]
              simp [List.append_assoc]
          · rw [if_neg (by simp [he]), if_neg (by simp [he]), ih t2 ht2, List.cons_append]
      · rw [if_neg h, if_neg h, ih t2 ht2]
        simp

theorem quoteFix_nil : quoteFix [] = [] := rfl

theorem quoteFix_append (t r : List Char)
    (hr : ∀ c, r.head? = some c → isWordChar c = false ∧ c ≠ '=') :
    quoteFix (t ++ r) = quoteFix t ++ quoteFix r :=
  quoteFix_append_aux r hr t.length t (le_refl _)

/-- A prefix of `quoteFix t` made of word characters only is a prefix of `t`:
replacements only ever insert quote characters. -/
theorem words_prefix_quoteFix :
    ∀ (n : Nat) (p t : List Char), (∀ c ∈ p, isWordChar c = true) →
      t.length ≤ n → p <+: quoteFix t → p <+: t := by
  intro n
  induction n with
  | zero =>
    intro p t hp ht h
    have h0 : t = [] := List.length_eq_zero.mp (Nat.le_zero.mp ht)
    subst h0
    rw [quoteFix_nil] at h
    exact h
  | succ n ih =>
    intro p t hp ht h
    match t with
    | [] =>
      rw [quoteFix_nil] at h
      exact h
    | c :: t2 =>
      simp only [List.length_cons] at ht
      have ht2 : t2.length ≤ n := by omega
      rw [quoteFix_cons] at h
      have fallback : p <+: c :: quoteFix t2 → p <+: c :: t2 := by
        intro hf
        match p with
        | [] => exact List.nil_prefix
        | d :: p2 =>
          rw [List.cons_prefix_cons] at hf ⊢
          exact ⟨hf.1, ih p2 t2 (fun x hx => hp x (List.mem_cons_of_mem d hx)) ht2 hf.2⟩
      by_cases hw : isWordChar c = true
      · simp only [hw, if_true] at h
        by_cases h2 : (List.dropWhile isWordChar t2).head? = some '='
        · rw [if_pos h2] at h
          by_cases h3 : List.takeWhile isWordChar ((List.dropWhile isWordChar t2).tail) = []
          · rw [if_pos h3] at h
            exact fallback h
          · rw [if_neg h3] at h
            by_cases hlen : p.length ≤ (List.takeWhile isWordChar (c :: t2)).length
            · exact (prefix_of_prefix_append h hlen).trans ( List.takeWhile_prefix _)
            · have hsplit := prefix_append_longer h (by omega)
              rcases hd : p.drop (List.takeWhile isWordChar (c :: t2)).length with _ | ⟨x, xs⟩
              · exfalso
                have := congrArg List.length hd
                simp only [List.length_drop, List.length_nil] at this
                omega
              · rw [hd, List.cons_prefix_cons] at hsplit
                have hx : x ∈ p := by
                  have : x ∈ p.drop (List.takeWhile isWordChar (c :: t2)).length := by
                    rw [hd]
                    exact List.mem_cons_self x xs
                  exact List.drop_subset _ _ this
                have := hp x hx
                rw [hsplit.2.1] at this
                exact absurd this (by decide)
        · rw [if_neg h2] at h
          exact fallback h
      · simp only [hw, if_false] at h
        exact fallback h

/-- A prefix of `quoteFix t` of the shape `'<'` followed by word characters
is a prefix of `t` itself. -/
theorem lt_words_prefix_quoteFix (p t : List Char)
    (hp : ∀ c ∈ p, isWordChar c = true) (h : ('<' :: p) <+: quoteFix t) :
    ('<' :: p) <+: t := by
  match t with
  | [] =>
    rw [quoteFix_nil] at h
    exact h
  | c :: t2 =>
    rw [quoteFix_cons] at h
    by_cases hw : isWordChar c = true
    · exfalso
      simp only [hw, if_true] at h
      have hlt : ¬ isWordChar '<' = true := by decide
      by_cases h2 : (List.dropWhile isWordChar t2).head? = some '='
      · rw [if_pos h2] at h
        by_cases h3 : List.takeWhile isWordChar ((List.dropWhile isWordChar t2).tail) = []
        · rw [if_pos h3, List.cons_prefix_cons] at h
          rw [← h.1] at hw
          exact hlt hw
        · rw [if_neg h3, List.takeWhile_cons_of_pos hw, List.cons_append,
            List.cons_prefix_cons] at h
          rw [← h.1] at hw
          exact hlt hw
      · rw [if_neg h2, List.cons_prefix_cons] at h
        rw [← h.1] at hw
        exact hlt hw
    · rw [if_neg hw] at h
      rw [List.cons_prefix_cons] at h ⊢
      exact ⟨h.1, words_prefix_quoteFix t2.length p t2 hp (le_refl _) h.2⟩

/-- The default root element opening used when `autoFixSvg` wraps a fragment
(`operations.ts` line 74, `image-processing.ts` line 68). -/
def svgWrapOpen : List Char :=
  str "<svg xmlns=\"http://www.w3.org/2000/svg\" viewBox=\"0 0 400 400\" width=\"400\" height=\"400\">"

/-- `fixed.replace(/^[\s\S]*?(<svg)/i, '$1')`: delete everything before the
first case-insensitive occurrence of the root opening tag (the lazy prefix
match keeps the matched tag text itself unchanged). -/
def stripBeforeOpen (s : List Char) : List Char :=
  match firstOccCI (str "<svg") s with
  | none => s
  | some i => s.drop i

/-- `fixed.replace(/<\/svg>[\s\S]*$/i, '</svg>')`: from the first
case-insensitive occurrence of the root closing tag, replace the rest of the
text by a lower-case closing tag. -/
def truncAfterClose (s : List Char) : List Char :=
  match firstOccCI (str "</svg>") s with
  | none => s
  | some i => s.take i ++ str "</svg>"

/-- The last three steps of `autoFixSvg`, split out for the proofs: append a
missing closing tag if an opening tag is present (`includes`); quote bare
attribute values; wrap the result in the default root element unless it
already starts (`startsWith`) with the opening tag. -/
def autoFixTail (f4 : List Char) : List Char :=
  let f5 := if (str "<svg") <:+: f4 ∧ ¬ (str "</svg>") <:+: f4 then f4 ++ str "</svg>" else f4
  let f6 := quoteFix f5
  if (str "<svg") <+: f6 then f6 else svgWrapOpen ++ f6 ++ str "</svg>"

/-- `autoFixSvg` (`operations.ts` lines 54-78 and the identical
`image-processing.ts` lines 48-72): trim, delete markdown fences, strip text
around the root element, append a missing closing tag, quote bare attribute
values, and wrap fragments that still do not start with the root opening tag. -/
def autoFixSvg (svg : List Char) : List Char :=
  autoFixTail (truncAfterClose (stripBeforeOpen
    (removeAllSub (str "```") (removeAllSub (str "```svg") (jsTrim svg)))))

/-- Whether a match of the structure regex `/<svg[^>]*>.*<\/svg>/s` starts at
position `i`: the opening tag, a run without `>` closed by the first `>`, and
a closing tag anywhere after it (`.` matches newlines under the `s` flag). -/
def structTestAt (s : List Char) (i : Nat) : Bool :=
  decide ((str "<svg") <+: s.drop i) &&
    (match firstIdxP (fun c => c = '>') (s.drop (i + 4)) with
     | none => false
     | some k => decide ((str "</svg>") <:+: s.drop (i + 4 + k + 1)))

/-- `/<svg[^>]*>.*<\/svg>/s.test(autoFixed)`: the regex matches somewhere. -/
def structTest (s : List Char) : Bool :=
  (List.range s.length).any (structTestAt s)

/-- The validation verdict object `{ isValid, error? }`. -/
structure SvgVerdict where
  isValid : Bool
  error : Option (List Char)
deriving DecidableEq, Repr

/-- `validateSvg` (`operations.ts` lines 81-108 and the identical
`image-processing.ts` lines 14-41).  Note that all checks after the emptiness
test are performed on the auto-fixed text, not on the raw input. -/
def validateSvg (svg : List Char) : SvgVerdict :=
  if svg = [] then ⟨false, some (str "SVG content is empty")⟩
  else
    let autoFixed := autoFixSvg svg
    if ¬ ((str "<svg") <:+: autoFixed) then ⟨false, some (str "Missing <svg> tag")⟩
    else if ¬ ((str "</svg>") <:+: autoFixed) then
      ⟨false, some (str "Missing closing </svg> tag")⟩
    else if structTest autoFixed = false then ⟨false, some (str "Invalid SVG structure")⟩
    else if ¬ ((str "xmlns=\"http://www.w3.org/2000/svg\"") <:+: autoFixed) then
      ⟨false, some (str "Missing xmlns attribute")⟩
    else ⟨true, none⟩

theorem infix_map_lower {p s : List Char} (h : p <:+: s) :
    p.map lowerAscii <:+: s.map lowerAscii := by
  rcases h with ⟨u, v, huv⟩
  exact ⟨u.map lowerAscii, v.map lowerAscii, by rw [← List.map_append, ← List.map_append, huv]⟩

theorem firstOccCI_eq_none_iff {p s : List Char} :
    firstOccCI p s = none ↔ ¬ (p.map lowerAscii <:+: s.map lowerAscii) :=
  firstOcc_eq_none_iff

theorem close_head_cond : ∀ c : Char, (str "</svg>").head? = some c →
    isWordChar c = false ∧ c ≠ '=' := by
  intro c hc
  have h : '<' = c := by simpa [str] using hc
  subst h
  exact ⟨by decide, by decide⟩

theorem quoteFix_endsWith_close {g : List Char} (h : (str "</svg>") <:+ g) :
    (str "</svg>") <:+ quoteFix g := by
  rcases h with ⟨t, ht⟩
  rw [← ht, quoteFix_append t _ close_head_cond,
    show quoteFix (str "</svg>") = str "</svg>" from by decide]
  exact List.suffix_append _ _

/-- `truncAfterClose` leaves the text either ending in the closing root tag or
containing no closing root tag at all. -/
theorem truncAfterClose_cases (f3 : List Char) :
    (str "</svg>") <:+ truncAfterClose f3 ∨
      ¬ ((str "</svg>") <:+: truncAfterClose f3) := by
  unfold truncAfterClose
  rcases h : firstOccCI (str "</svg>") f3 with _ | i
  · right
    intro hyp
    have h2 := firstOccCI_eq_none_iff.mp h
    exact h2 (by
      have := infix_map_lower hyp
      rwa [show (str "</svg>").map lowerAscii = str "</svg>" from by decide] at this)
  · left
    exact List.suffix_append _ _

theorem autoFixTail_endsWith (f4 : List Char)
    (hf : (str "</svg>") <:+ f4 ∨ ¬ ((str "</svg>") <:+: f4)) :
    (str "</svg>") <:+ autoFixTail f4 := by
  unfold autoFixTail
  by_cases hc : (str "<svg") <:+: f4 ∧ ¬ (str "</svg>") <:+: f4
  · rw [if_pos hc]
    have h6 : (str "</svg>") <:+ quoteFix (f4 ++ str "</svg>") :=
      quoteFix_endsWith_close (List.suffix_append _ _)
    by_cases hp : (str "<svg") <+: quoteFix (f4 ++ str "</svg>")
    · rw [if_pos hp]
      exact h6
    · rw [if_neg hp]
      exact List.suffix_append _ _
  · rw [if_neg hc]
    by_cases hp : (str "<svg") <+: quoteFix f4
    · rw [if_pos hp]
      have hopen : (str "<svg") <+: f4 := by
        have hsplit : str "<svg" = '<' :: str "svg" := by decide
        rw [hsplit] at hp ⊢
        exact lt_words_prefix_quoteFix (str "svg") f4 (by decide) hp
      have hclose : (str "</svg>") <:+: f4 := by
        by_contra hx
        exact hc ⟨hopen.isInfix, hx⟩
      have hends : (str "</svg>") <:+ f4 := by
        rcases hf with h1 | h2
        · exact h1
        · exact absurd hclose h2
      exact quoteFix_endsWith_close hends
    · rw [if_neg hp]
      exact List.suffix_append _ _

/-- The output of `autoFixSvg` always ends with the closing root tag. -/
theorem autoFixSvg_endsWith (s : List Char) : (str "</svg>") <:+ autoFixSvg s :=
  autoFixTail_endsWith _ (truncAfterClose_cases _)

theorem svgWrapOpen_starts : (str "<svg") <+: svgWrapOpen := by decide

theorem autoFixTail_hasOpen (f4 : List Char) : (str "<svg") <:+: autoFixTail f4 := by
  unfold autoFixTail
  by_cases hp : (str "<svg") <+: quoteFix
      (if (str "<svg") <:+: f4 ∧ ¬ (str "</svg>") <:+: f4 then f4 ++ str "</svg>" else f4)
  · rw [if_pos hp]
    exact hp.isInfix
  · rw [if_neg hp]
    exact (svgWrapOpen_starts.trans (List.prefix_append _ _)).isInfix

/-- The output of `autoFixSvg` always contains the opening root tag. -/
theorem autoFixSvg_hasOpen (s : List Char) : (str "<svg") <:+: autoFixSvg s :=
  autoFixTail_hasOpen _

/-- The output of `autoFixSvg` always contains the closing root tag. -/
theorem autoFixSvg_hasClose (s : List Char) : (str "</svg>") <:+: autoFixSvg s :=
  (autoFixSvg_endsWith s).isInfix

theorem autoFixTail_ne_nil (f4 : List Char) : autoFixTail f4 ≠ [] := by
  unfold autoFixTail
  by_cases hp : (str "<svg") <+: quoteFix
      (if (str "<svg") <:+: f4 ∧ ¬ (str "</svg>") <:+: f4 then f4 ++ str "</svg>" else f4)
  · rw [if_pos hp]
    intro hnil
    rw [hnil] at hp
    simp [str] at hp
  · rw [if_neg hp]
    simp [svgWrapOpen, str]

theorem no_open_truncAfterClose {f3 : List Char} (h : ¬ (str "<svg") <:+: f3) :
    ¬ (str "<svg") <:+: truncAfterClose f3 := by
  unfold truncAfterClose
  rcases hocc : firstOccCI (str "</svg>") f3 with _ | i
  · exact h
  · apply not_infix_append
    · intro hx
      exact h (hx.trans (List.take_prefix i f3).isInfix)
    · decide
    · rintro k hk0 hk1 ⟨_, hdrop⟩
      have hk4 : k < 4 := by
        have : (str "<svg").length = 4 := by decide
        omega
      interval_cases k
      · exact absurd hdrop (by decide)
      · exact absurd hdrop (by decide)
      · exact absurd hdrop (by decide)

/-- When the argument contains no opening root tag, `autoFixTail` wraps it in
the default root element. -/
theorem autoFixTail_wrap {f4 : List Char} (h : ¬ (str "<svg") <:+: f4) :
    autoFixTail f4 = svgWrapOpen ++ quoteFix f4 ++ str "</svg>" := by
  have hc : ¬ ((str "<svg") <:+: f4 ∧ ¬ (str "</svg>") <:+: f4) := by
    rintro ⟨hx, _⟩
    exact h hx
  have hp : ¬ (str "<svg") <+: quoteFix f4 := by
    intro hp
    apply h
    have hsplit : str "<svg" = '<' :: str "svg" := by decide
    rw [hsplit] at hp
    rw [hsplit]
    exact (lt_words_prefix_quoteFix (str "svg") f4 (by decide) hp).isInfix
  simp only [autoFixTail]
  rw [if_neg hc, if_neg hp]

theorem firstIdxP_cons (w : Char → Bool) (c : Char) (t : List Char) :
    firstIdxP w (c :: t) = if w c then some 0 else (firstIdxP w t).map (· + 1) := rfl

theorem firstIdxP_append_left {w : Char → Bool} {a : List Char} {k : Nat}
    (h : firstIdxP w a = some k) (b : List Char) : firstIdxP w (a ++ b) = some k := by
  induction a generalizing k with
  | nil => simp [firstIdxP] at h
  | cons c t ih =>
    rw [firstIdxP_cons] at h
    rw [List.cons_append, firstIdxP_cons]
    by_cases hc : w c
    · rw [if_pos hc] at h ⊢
      exact h
    · rw [if_neg hc] at h ⊢
      rcases h2 : firstIdxP w t with _ | j
      · rw [h2] at h
        exact Option.noConfusion h
      · rw [h2] at h
        rw [ih h2]
        exact h

/-- The structure regex always matches a text of the shape
`svgWrapOpen ++ u ++ "</svg>"`. -/
theorem structTest_wrap (u : List Char) :
    structTest (svgWrapOpen ++ u ++ str "</svg>") = true := by
  unfold structTest
  rw [List.any_eq_true]
  refine ⟨0, ?_, ?_⟩
  · rw [List.mem_range]
    have h1 : (87 : Nat) ≤ (svgWrapOpen ++ u ++ str "</svg>").length := by
      simp only [List.length_append]
      have h2 : svgWrapOpen.length = 87 := by decide
      omega
    omega
  · unfold structTestAt
    rw [List.append_assoc, Bool.and_eq_true]
    constructor
    · rw [List.drop_zero]
      simp only [decide_eq_true_eq]
      exact svgWrapOpen_starts.trans (List.prefix_append _ _)
    · rw [Nat.zero_add, List.drop_append_of_le_length (by decide)]
      rw [firstIdxP_append_left
        (by decide : firstIdxP (fun c => c = '>') (svgWrapOpen.drop 4) = some 82)]
      show decide ((str "</svg>") <:+:
        (svgWrapOpen ++ (u ++ str "</svg>")).drop (0 + 4 + 82 + 1)) = true
      rw [show ((0 + 4 + 82 + 1 : Nat)) = svgWrapOpen.length from by decide]
      rw [List.drop_left]
      simp only [decide_eq_true_eq]
      exact (List.suffix_append _ _).isInfix

theorem stripBeforeOpen_within (x : List Char) : stripBeforeOpen x <:+: x := by
  unfold stripBeforeOpen
  rcases firstOccCI (str "<svg") x with _ | i
  · exact List.infix_refl x
  · exact (List.drop_suffix i x).isInfix

theorem xmlnsAttr_in_wrap : (str "xmlns=\"http://www.w3.org/2000/svg\"") <:+: svgWrapOpen := by
  decide

/-- Core of the implicit-claim analysis: a non-empty input that nowhere
contains the (lower-case) opening root tag and contains no backtick is wrapped
by the auto-fix into a complete default root element, so validation passes. -/
theorem validateSvg_no_open {s : List Char} (hne : s ≠ [])
    (hs : ¬ (str "<svg") <:+: s) (hb : ('\x60' : Char) ∉ s) :
    validateSvg s = ⟨true, none⟩ := by
  have hs0 : ¬ (str "<svg") <:+: jsTrim s := fun hx => hs (hx.trans (jsTrim_within s))
  have hb0 : ('\x60' : Char) ∉ jsTrim s := fun hx => hb ((jsTrim_within s).subset hx)
  have h1 : ¬ (str "```svg") <:+: jsTrim s := fun hx =>
    hb0 (hx.subset (by decide : ('\x60' : Char) ∈ str "```svg"))
  have h2 : ¬ (str "```") <:+: jsTrim s := fun hx =>
    hb0 (hx.subset (by decide : ('\x60' : Char) ∈ str "```"))
  have hfix : autoFixSvg s = autoFixTail (truncAfterClose (stripBeforeOpen (jsTrim s))) := by
    unfold autoFixSvg
    rw [removeAllSub_absent h1, removeAllSub_absent h2]
  have hs3 : ¬ (str "<svg") <:+: stripBeforeOpen (jsTrim s) := fun hx =>
    hs0 (hx.trans (stripBeforeOpen_within _))
  have hs4 := no_open_truncAfterClose hs3
  have hwrap : autoFixSvg s =
      svgWrapOpen ++ quoteFix (truncAfterClose (stripBeforeOpen (jsTrim s))) ++ str "</svg>" := by
    rw [hfix, autoFixTail_wrap hs4]
  simp only [validateSvg]
  rw [if_neg hne]
  rw [if_neg (not_not_intro (autoFixSvg_hasOpen s))]
  rw [if_neg (not_not_intro (autoFixSvg_hasClose s))]
  have hstruct : structTest (autoFixSvg s) = true := by
    rw [hwrap, List.append_assoc]
    have := structTest_wrap (quoteFix (truncAfterClose (stripBeforeOpen (jsTrim s))))
    rwa [List.append_assoc] at this
  rw [if_neg (by simp [hstruct])]
  rw [if_neg (not_not_intro (by
    rw [hwrap]
    exact xmlnsAttr_in_wrap.trans
      ((List.prefix_append svgWrapOpen _).trans (List.prefix_append _ _)).isInfix))]

/-- For a non-empty input the two tag-presence failures are unreachable,
because validation runs on the auto-fixed text, which always contains both
root tags. -/
theorem validateSvg_error_cases (s : List Char) (hne : s ≠ []) :
    (validateSvg s).error ≠ some (str "Missing <svg> tag") ∧
    (validateSvg s).error ≠ some (str "Missing closing </svg> tag") := by
  simp only [validateSvg]
  rw [if_neg hne]
  rw [if_neg (not_not_intro (autoFixSvg_hasOpen s))]
  rw [if_neg (not_not_intro (autoFixSvg_hasClose s))]
  by_cases h1 : structTest (autoFixSvg s) = false
  · rw [if_pos h1]
    exact ⟨by decide, by decide⟩
  · rw [if_neg h1]
    by_cases h2 : ¬ ((str "xmlns=\"http://www.w3.org/2000/svg\"") <:+: autoFixSvg s)
    · rw [if_pos h2]
      exact ⟨by decide, by decide⟩
    · rw [if_neg h2]
      exact ⟨by decide, by decide⟩

/-- The required namespace attribute literal. -/
def xmlnsAttr : List Char := str "xmlns=\"http://www.w3.org/2000/svg\""

/-- Whether a match of the script-removal regex
`/<script\b[^<]*(?:(?!<\/script>)<[^<]*)*<\/script>/gi` can start at `i`:
a case-insensitive `<script` whose following character is not a word
character (the `\b` boundary). -/
def scriptOpenAt (s : List Char) (i : Nat) : Bool :=
  decide ((str "<script").map lowerAscii <+: (s.drop i).map lowerAscii) &&
    (match (s.drop (i + 7)).head? with
     | some c => !(isWordChar c)
     | none => false)

/-- End position (exclusive) of the script-element match starting at `i`:
the regex body consumes everything up to the first case-insensitive
`</script>`, which must exist for the match to succeed. -/
def scriptMatchAt (s : List Char) (i : Nat) : Option Nat :=
  if scriptOpenAt s i then
    match firstOccCI (str "</script>") (s.drop (i + 7)) with
    | some k => some (i + 7 + k + 9)
    | none => none
  else none

/-- Leftmost script-element match, as (start, end). -/
def findScript (s : List Char) : Option (Nat × Nat) :=
  (List.range s.length).findSome? (fun i => (scriptMatchAt s i).map (fun e => (i, e)))

/-- Fuel-indexed worker: remove every script-element match, continuing after
each removed match (the `g` flag).  Each match is at least 16 characters long,
so fuel `s.length` is always sufficient. -/
def removeScriptsGo : Nat → List Char → List Char
  | 0, s => s
  | fuel + 1, s =>
    match findScript s with
    | none => s
    | some (i, e) => s.take i ++ removeScriptsGo fuel (s.drop e)

/-- `sanitized.replace(/<script\b[^<]*(?:(?!<\/script>)<[^<]*)*<\/script>/gi, '')`. -/
def removeScripts (s : List Char) : List Char := removeScriptsGo s.length s

theorem removeScripts_of_no_script {s : List Char}
    (h : ¬ ((str "<script").map lowerAscii <:+: s.map lowerAscii)) :
    removeScripts s = s := by
  have hopen : ∀ i, scriptOpenAt s i = false := by
    intro i
    unfold scriptOpenAt
    rw [Bool.and_eq_false_iff]
    left
    rw [decide_eq_false_iff_not]
    intro hx
    apply h
    rw [List.map_drop] at hx
    exact hx.isInfix.trans (List.drop_suffix i (s.map lowerAscii)).isInfix
  have hnone : findScript s = none := by
    unfold findScript
    rw [List.findSome?_eq_none_iff]
    intro i _
    unfold scriptMatchAt
    rw [hopen i]
    simp
  unfold removeScripts
  cases hs : s.length with
  | zero => rfl
  | succ n =>
    unfold removeScriptsGo
    rw [hnone]

/-- `sanitizeSvg` (`operations.ts` lines 111-133 and the identical
`image-processing.ts` lines 79-101): trim, inject xmlns / viewBox /
width+height at the first root opening tag when the corresponding `includes`
test fails, then strip script elements. -/
def sanitizeSvg (svg : List Char) : List Char :=
  let s0 := jsTrim svg
  let s1 := if xmlnsAttr <:+: s0 then s0
            else replaceFirstSub (str "<svg") (str "<svg xmlns=\"http://www.w3.org/2000/svg\"") s0
  let s2 := if (str "viewBox") <:+: s1 then s1
            else replaceFirstSub (str "<svg") (str "<svg viewBox=\"0 0 400 400\"") s1
  let s3 := if ¬ ((str "width=") <:+: s2) ∧ ¬ ((str "height=") <:+: s2)
            then replaceFirstSub (str "<svg") (str "<svg width=\"400\" height=\"400\"") s2
            else s2
  removeScripts s3

/-- On an input that already carries all three attribute groups and has no
script element, `sanitizeSvg` only trims. -/
theorem sanitizeSvg_of_attrs {x : List Char}
    (h1 : xmlnsAttr <:+: x) (h2 : (str "viewBox") <:+: x)
    (h3 : (str "width=") <:+: x) (h4 : (str "height=") <:+: x)
    (h5 : ¬ ((str "<script").map lowerAscii <:+: x.map lowerAscii)) :
    sanitizeSvg x = jsTrim x := by
  simp only [sanitizeSvg]
  have t1 : xmlnsAttr <:+: jsTrim x := infix_jsTrim_of_no_ws (by decide) h1
  rw [if_pos t1]
  have t2 : (str "viewBox") <:+: jsTrim x := infix_jsTrim_of_no_ws (by decide) h2
  rw [if_pos t2]
  have t3 : (str "width=") <:+: jsTrim x := infix_jsTrim_of_no_ws (by decide) h3
  rw [if_neg (by
    rintro ⟨ha, _⟩
    exact ha t3)]
  exact removeScripts_of_no_script (fun hx => h5 (hx.trans (infix_map_lower (jsTrim_within x))))

/-- Idempotence of `sanitizeSvg` on attribute-complete, script-free input. -/
theorem sanitizeSvg_idem_of_attrs {x : List Char}
    (h1 : xmlnsAttr <:+: x) (h2 : (str "viewBox") <:+: x)
    (h3 : (str "width=") <:+: x) (h4 : (str "height=") <:+: x)
    (h5 : ¬ ((str "<script").map lowerAscii <:+: x.map lowerAscii)) :
    sanitizeSvg (sanitizeSvg x) = sanitizeSvg x := by
  rw [sanitizeSvg_of_attrs h1 h2 h3 h4 h5]
  have t1 := infix_jsTrim_of_no_ws (p := xmlnsAttr) (by decide) h1
  have t2 := infix_jsTrim_of_no_ws (p := str "viewBox") (by decide) h2
  have t3 := infix_jsTrim_of_no_ws (p := str "width=") (by decide) h3
  have t4 := infix_jsTrim_of_no_ws (p := str "height=") (by decide) h4
  have t5 : ¬ ((str "<script").map lowerAscii <:+: (jsTrim x).map lowerAscii) :=
    fun hx => h5 (hx.trans (infix_map_lower (jsTrim_within x)))
  rw [sanitizeSvg_of_attrs t1 t2 t3 t4 t5, jsTrim_idem]

/-- `fixTruncatedSvg` (`image-processing.ts` lines 108-136): when the trimmed
text does not end with the closing root tag, truncate at
`lastCompleteElement + 4` (the source comment says "+4 to include the closing
tag") and append `</g></svg>`. -/
def fixTruncatedSvg (svg : List Char) : List Char :=
  if ¬ ((str "</svg>") <:+ jsTrim svg) then
    let m := max (lastIndexOfJS (str "</g>") svg)
      (max (lastIndexOfJS (str "</path>") svg)
        (max (lastIndexOfJS (str "</rect>") svg)
          (max (lastIndexOfJS (str "</circle>") svg) (lastIndexOfJS (str "</text>") svg))))
    let fixed := if 0 < m then svg.take (m + 4).toNat else svg
    fixed ++ str "</g></svg>"
  else svg

/-- The graphic type selector of `generateSvgVariations`. -/
inductive SvgKind
  | workflow
  | videoElement
deriving DecidableEq, Repr

/-- `ANIMATION_PRESETS.workflow.highlight` (verbatim, including the template
literal's newline and indentation). -/
def presetWorkflowHighlight : List Char :=
  str "<animate attributeName=\"stroke-width\" values=\"2;4;2\" dur=\"1s\" repeatCount=\"indefinite\"/>\n                <animate attributeName=\"stroke-opacity\" values=\"0.6;1;0.6\" dur=\"1s\" repeatCount=\"indefinite\"/>"

/-- `ANIMATION_PRESETS.workflow.flow`. -/
def presetWorkflowFlow : List Char :=
  str "<animate attributeName=\"stroke-dashoffset\" from=\"0\" to=\"20\" dur=\"1s\" repeatCount=\"indefinite\"/>"

/-- `ANIMATION_PRESETS.workflow.pulse` (verbatim). -/
def presetWorkflowPulse : List Char :=
  str "<animate attributeName=\"r\" values=\"10;12;10\" dur=\"1s\" repeatCount=\"indefinite\"/>\n            <animate attributeName=\"opacity\" values=\"0.6;1;0.6\" dur=\"1s\" repeatCount=\"indefinite\"/>"

/-- `ANIMATION_PRESETS.workflow.fadeIn`. -/
def presetWorkflowFadeIn : List Char :=
  str "<animate attributeName=\"opacity\" from=\"0\" to=\"1\" dur=\"0.5s\" fill=\"freeze\"/>"

/-- `ANIMATION_PRESETS.videoElements.rotate`. -/
def presetVideoRotate : List Char :=
  str "<animateTransform attributeName=\"transform\" type=\"rotate\" from=\"0 200 200\" to=\"360 200 200\" dur=\"3s\" repeatCount=\"indefinite\"/>"

/-- `ANIMATION_PRESETS.videoElements.scale`. -/
def presetVideoScale : List Char :=
  str "<animateTransform attributeName=\"transform\" type=\"scale\" values=\"1;1.2;1\" dur=\"1s\" repeatCount=\"indefinite\"/>"

/-- `ANIMATION_PRESETS.videoElements.morph`. -/
def presetVideoMorph : List Char :=
  str "<animate attributeName=\"d\" dur=\"2s\" repeatCount=\"indefinite\"/>"

/-- The helper inside `generateSvgVariations`:
`svg.replace('<' + target, '<' + target + '>' + animation)` — a literal
first-occurrence replacement whose pattern is the target text prefixed
with `<`, even when the target is a CSS-selector string. -/
def addAnimation (svg anim target : List Char) : List Char :=
  replaceFirstSub (str "<" ++ target) (str "<" ++ target ++ str ">" ++ anim) svg

/-- The style attribute injected at the root for workflow graphics. -/
def workflowStyle : List Char :=
  str "<svg style=\"filter: drop-shadow(0 0 3px rgba(0,0,0,0.2))\""

/-- The style attribute injected at the root for video-element graphics. -/
def videoStyle : List Char :=
  str "<svg style=\"filter: drop-shadow(0 0 5px rgba(255,255,255,0.5))\""

/-- `generateSvgVariations` (`operations.ts` lines 136-208 and the identical
`image-processing.ts` lines 144-216): inject the style attribute at the first
`<svg`, then append one animation fragment after the first occurrence of each
target pattern; returns a single enhanced variant. -/
def generateSvgVariations (baseSvg : List Char) (kind : SvgKind) : List (List Char) :=
  match kind with
  | .workflow =>
    let e0 := replaceFirstSub (str "<svg") workflowStyle baseSvg
    let e1 := addAnimation e0 presetWorkflowFlow (str "path")
    let e2 := addAnimation e1 presetWorkflowPulse (str "circle")
    let e3 := addAnimation e2 presetWorkflowHighlight (str "g[class*=\"highlight\"]")
    let e4 := addAnimation e3 presetWorkflowFadeIn (str "text")
    [e4]
  | .videoElement =>
    let e0 := replaceFirstSub (str "<svg") videoStyle baseSvg
    let e1 := addAnimation e0 presetVideoRotate (str "g[class*=\"rotate\"]")
    let e2 := addAnimation e1 presetVideoScale (str "g[class*=\"scale\"]")
    let e3 := addAnimation e2 presetVideoMorph (str "path[class*=\"morph\"]")
    [e3]

theorem replaceFirstSub_absent {p r s : List Char} (h : ¬ p <:+: s) :
    replaceFirstSub p r s = s := by
  unfold replaceFirstSub
  rw [firstOcc_eq_none_iff.mpr h]

/-- No nonempty proper prefix of `q` is a suffix of `r` (boundary check). -/
def noTakeSuffix (q r : List Char) : Bool :=
  (List.range q.length).all (fun k => decide (k = 0) || !(decide (q.take k <:+ r)))

/-- No nonempty proper tail of `q` is a prefix of `r` (boundary check). -/
def noDropPre (q r : List Char) : Bool :=
  (List.range q.length).all (fun k => decide (k = 0) || !(decide (q.drop k <+: r)))

theorem noTakeSuffix_spec {q r : List Char} (h : noTakeSuffix q r = true) :
    ∀ k, 0 < k → k < q.length → ¬ (q.take k <:+ r) := by
  unfold noTakeSuffix at h
  rw [List.all_eq_true] at h
  intro k hk0 hk1 hx
  have h2 := h k (List.mem_range.mpr hk1)
  rcases Bool.or_eq_true_iff.mp h2 with h3 | h3
  · rw [decide_eq_true_eq] at h3
    omega
  · rw [Bool.not_eq_true', decide_eq_false_iff_not] at h3
    exact h3 hx

theorem noDropPre_spec {q r : List Char} (h : noDropPre q r = true) :
    ∀ k, 0 < k → k < q.length → ¬ (q.drop k <+: r) := by
  unfold noDropPre at h
  rw [List.all_eq_true] at h
  intro k hk0 hk1 hx
  have h2 := h k (List.mem_range.mpr hk1)
  rcases Bool.or_eq_true_iff.mp h2 with h3 | h3
  · rw [decide_eq_true_eq] at h3
    omega
  · rw [Bool.not_eq_true', decide_eq_false_iff_not] at h3
    exact h3 hx

/-- A first-occurrence replacement cannot create an occurrence of an unrelated
pattern `q` when `q` is absent from the text and from the replacement and no
occurrence can straddle either seam. -/
theorem not_infix_replaceFirst {q p r x : List Char}
    (hx : ¬ q <:+: x) (hr : ¬ q <:+: r)
    (hlen : q.length ≤ r.length + 1)
    (hpre : noDropPre q r = true)
    (hsuf : noTakeSuffix q r = true) :
    ¬ q <:+: replaceFirstSub p r x := by
  unfold replaceFirstSub
  rcases ho : firstOcc p x with _ | i
  · exact hx
  · show ¬ q <:+: x.take i ++ r ++ x.drop (i + p.length)
    rw [List.append_assoc]
    apply not_infix_append
    · exact fun hq => hx (hq.trans (List.take_prefix i x).isInfix)
    · apply not_infix_append
      · exact hr
      · exact fun hq => hx (hq.trans (List.drop_suffix _ x).isInfix)
      · rintro k hk0 hk1 ⟨hka, _⟩
        exact noTakeSuffix_spec hsuf k hk0 hk1 hka
    · rintro k hk0 hk1 ⟨_, hkb⟩
      have hlen2 : (q.drop k).length ≤ r.length := by
        simp only [List.length_drop]
        omega
      exact noDropPre_spec hpre k hk0 hk1 (prefix_of_prefix_append hkb hlen2)

/-- When the markup contains none of the four workflow target patterns —
in particular when its animatable elements are written as ordinary
`<g class="highlight">` markup rather than the literal selector text
`<g[class*="highlight"]` — `generateSvgVariations` injects no animation
fragment at all and only restyles the root. -/
theorem genVar_workflow_untouched {x : List Char}
    (hp : ¬ (str "<path") <:+: x) (hc : ¬ (str "<circle") <:+: x)
    (ht : ¬ (str "<text") <:+: x)
    (hg : ¬ (str "<g[class*=\"highlight\"]") <:+: x) :
    generateSvgVariations x SvgKind.workflow =
      [replaceFirstSub (str "<svg") workflowStyle x] := by
  have h1 : ¬ (str "<path") <:+: replaceFirstSub (str "<svg") workflowStyle x :=
    not_infix_replaceFirst hp (by decide) (by decide) (by decide) (by decide)
  have h2 : ¬ (str "<circle") <:+: replaceFirstSub (str "<svg") workflowStyle x :=
    not_infix_replaceFirst hc (by decide) (by decide) (by decide) (by decide)
  have h3 : ¬ (str "<text") <:+: replaceFirstSub (str "<svg") workflowStyle x :=
    not_infix_replaceFirst ht (by decide) (by decide) (by decide) (by decide)
  have h4 : ¬ (str "<g[class*=\"highlight\"]") <:+: replaceFirstSub (str "<svg") workflowStyle x :=
    not_infix_replaceFirst hg (by decide) (by decide) (by decide) (by decide)
  simp only [generateSvgVariations, addAnimation]
  rw [show str "<" ++ str "path" = str "<path" from by decide,
    show str "<" ++ str "circle" = str "<circle" from by decide,
    show str "<" ++ str "g[class*=\"highlight\"]" = str "<g[class*=\"highlight\"]" from by decide,
    show str "<" ++ str "text" = str "<text" from by decide]
  rw [replaceFirstSub_absent h1, replaceFirstSub_absent h2,
    replaceFirstSub_absent h4, replaceFirstSub_absent h3]

/-- Outcome oracle for the external effects of the rasterizers: whether each
external step (temp-file writes, browser launch, page load, screenshot, image
encoding) succeeds, and the base64 payload the encoder would produce. -/
structure RenderEnv where
  writeOk : Bool
  launchOk : Bool
  gotoOk : Bool
  screenshotOk : Bool
  encodeOk : Bool
  gifBase64 : List Char
deriving DecidableEq, Repr

deriving instance DecidableEq for Except

/-- Observable result of one rasterizer run: the returned value or error, the
content written to the temp directory (when reached), and whether the
temporary directory was created, whether it was removed, and whether the
browser was closed by the end of the run. -/
structure GifRun where
  result : Except (List Char) (List Char)
  writtenSvg : Option (List Char)
  tempDirCreated : Bool
  tempDirRemoved : Bool
  browserClosed : Bool
deriving DecidableEq, Repr

/-- `convertSvgToGif` (`image-processing.ts` lines 223-363) as a sequential
effect model: validate (guard on `.isValid`), create the temp directory, write
the SVG and HTML files (outside the try block), then inside the try block
launch the browser, load the page, capture frames, close the browser and
encode; `fs.rm(tempDir)` is executed only on the success path, while the catch
block only closes the browser before rethrowing. -/
def convertSvgToGifModel (svg : List Char) (env : RenderEnv) : GifRun :=
  if (validateSvg svg).isValid = false then
    ⟨.error (str "Invalid SVG content"), none, false, false, false⟩
  else if env.writeOk = false then
    ⟨.error (str "temp file write failed"), none, true, false, false⟩
  else if env.launchOk = false then
    ⟨.error (str "browser launch failed"), some svg, true, false, false⟩
  else if env.gotoOk = false then
    ⟨.error (str "page load failed"), some svg, true, false, true⟩
  else if env.screenshotOk = false then
    ⟨.error (str "screenshot failed"), some svg, true, false, true⟩
  else if env.encodeOk = false then
    ⟨.error (str "gif encoding failed"), some svg, true, false, true⟩
  else
    ⟨.ok (str "data:image/gif;base64," ++ env.gifBase64), some svg, true, true, true⟩

/-- In JavaScript every object is truthy, so `!validateSvg(svg)` — the guard
written in `convertTo` at `operations.ts` line 425 — is false for every
verdict object. -/
def jsObjectIsFalsy (v : SvgVerdict) : Bool := false

/-- `convertToGif` (`operations.ts` lines 422-507) as a sequential effect
model.  Its validation guard is `if (!validateSvg(svg))`, which tests the
truthiness of the verdict object instead of `.isValid` and therefore never
fires; the sanitized SVG is then written to the temp directory, the browser
is closed in a `finally`, and `fs.rm(tempDir)` runs only on the success
path. -/
def convertToGifModel (svg : List Char) (env : RenderEnv) : GifRun :=
  if jsObjectIsFalsy (validateSvg svg) = true then
    ⟨.error (str "Invalid SVG content"), none, false, false, false⟩
  else if env.writeOk = false then
    ⟨.error (str "temp file write failed"), none, true, false, false⟩
  else if env.launchOk = false then
    ⟨.error (str "browser launch failed"), some (sanitizeSvg svg), true, false, false⟩
  else if env.gotoOk = false then
    ⟨.error (str "page load failed"), some (sanitizeSvg svg), true, false, true⟩
  else if env.screenshotOk = false then
    ⟨.error (str "screenshot failed"), some (sanitizeSvg svg), true, false, true⟩
  else if env.encodeOk = false then
    ⟨.error (str "gif encoding failed"), some (sanitizeSvg svg), true, false, true⟩
  else
    ⟨.ok (str "data:image/gif;base64," ++ env.gifBase64), some (sanitizeSvg svg), true, true, true⟩

/-- Whether an `Except` result is a success. -/
def exceptIsOk {ε α : Type} : Except ε α → Bool
  | .ok _ => true
  | .error _ => false

/-- Outcome oracle for one hypothetical OpenRouter HTTP exchange: whether the
API key env variable is set, whether the response is `ok`, the parsed
`error.message` field, the `statusText`, and the completion content. -/
structure LLMEnv where
  apiKeyPresent : Bool
  respOk : Bool
  respErrMessage : Option (List Char)
  statusText : List Char
  content : List Char
deriving DecidableEq, Repr

/-- JavaScript `a || b` on strings: the empty string is falsy. -/
def jsOrStr (a : Option (List Char)) (b : List Char) : List Char :=
  match a with
  | some s => if s = [] then b else s
  | none => b

/-- An HttpError value `(status, message)`. -/
structure HttpErr where
  status : Nat
  message : List Char
deriving DecidableEq, Repr

/-- The body of the `try` block of `callOpenRouterAPI` (`ai-connection.ts`
lines 45-79): one `fetch` (the second component counts issued requests);
a non-ok response throws
`OpenRouter API error: ${errorData.error?.message || response.statusText}`. -/
def callOpenRouterInner (env : LLMEnv) : Except (List Char) (List Char) × Nat :=
  if env.respOk = false then
    (.error (str "OpenRouter API error: " ++ jsOrStr env.respErrMessage env.statusText), 1)
  else (.ok env.content, 1)

/-- `callOpenRouterAPI` (`ai-connection.ts` lines 36-84): throw an
HttpError 500 before any request when no API key is configured; otherwise run
the single fetch, converting a thrown error through the catch block
`throw new HttpError(500, error.message || 'Failed to call OpenRouter API')`. -/
def callOpenRouterAPIModel (env : LLMEnv) : Except HttpErr (List Char) × Nat :=
  if env.apiKeyPresent = false then
    (.error ⟨500, str "OpenRouter API key is not configured"⟩, 0)
  else
    match callOpenRouterInner env with
    | (.error m, n) => (.error ⟨500, jsOrStr (some m) (str "Failed to call OpenRouter API")⟩, n)
    | (.ok c, n) => (.ok c, n)

/-- Number of positions at which `p` occurs in `s`. -/
def countSub (p s : List Char) : Nat :=
  ((List.range (s.length + 1)).filter (fun i => decide (p <+: s.drop i))).length

/-- Claim C1: the rasterize operation is claimed to validate its SVG input
first and fail fast for every input on which validate reports
`isValid = false`.  The code violates this in `convertToGif`
(`operations.ts` line 425): the guard is `if (!validateSvg(svg))`, and a
verdict object is always truthy, so the guard never fires.  At the failing
input `""` — reported invalid by `validateSvg` — `convertToGif` proceeds and
produces an image, while `convertSvgToGif` (which tests `.isValid`) fails
fast as claimed. -/
theorem c1_convertToGif_skips_validation :
    (validateSvg (str "")).isValid = false ∧
    (convertToGifModel (str "") ⟨true, true, true, true, true, str "QUJD"⟩).result =
      Except.ok (str "data:image/gif;base64,QUJD") ∧
    (convertToGifModel (str "") ⟨true, true, true, true, true, str "QUJD"⟩).tempDirCreated = true ∧
    (convertSvgToGifModel (str "") ⟨true, true, true, true, true, str "QUJD"⟩).result =
      Except.error (str "Invalid SVG content") := by
  refine ⟨by decide, by decide, by decide, by decide⟩

/-- Claim C2 (counterexample): a valid input whose browser launch fails shows
the temp directory is created but NOT removed on that error path, refuting
"removed on every exit path". -/
theorem c2_counterexample :
    (validateSvg (str "<svg xmlns=\"http://www.w3.org/2000/svg\"></svg>")).isValid = true ∧
    (convertSvgToGifModel (str "<svg xmlns=\"http://www.w3.org/2000/svg\"></svg>")
      ⟨true, false, true, true, true, str "QUJD"⟩).tempDirCreated = true ∧
    (convertSvgToGifModel (str "<svg xmlns=\"http://www.w3.org/2000/svg\"></svg>")
      ⟨true, false, true, true, true, str "QUJD"⟩).tempDirRemoved = false ∧
    exceptIsOk (convertSvgToGifModel (str "<svg xmlns=\"http://www.w3.org/2000/svg\"></svg>")
      ⟨true, false, true, true, true, str "QUJD"⟩).result = false := by
  refine ⟨by decide, by decide, by decide, by decide⟩

/-- Claim C2 (amended): in both rasterizers the temporary directory is removed
exactly on the successful exit path; on every error path after its creation
(file write, browser launch, page load, screenshot, encoding) it is left
behind. -/
theorem c2_tempdir_removed_iff_success (svg : List Char) (env : RenderEnv) :
    (convertSvgToGifModel svg env).tempDirRemoved =
      exceptIsOk (convertSvgToGifModel svg env).result ∧
    (convertToGifModel svg env).tempDirRemoved =
      exceptIsOk (convertToGifModel svg env).result := by
  constructor
  · unfold convertSvgToGifModel
    repeat' split
    all_goals rfl
  · unfold convertToGifModel
    repeat' split
    all_goals rfl

/-- Claim C3: `fixTruncatedSvg` is claimed to keep the entire last closing tag.
The code adds only `+ 4` characters ("+4 to include the closing tag"), which
is correct solely for `</g>`: at the failing input below the last closing tag
is `</circle>` and the output keeps only `</ci`, cutting inside the tag, so
the code contradicts its own comment and the claim. -/
theorem c3_truncation_cuts_inside_tag :
    fixTruncatedSvg (str "<svg><circle cx=\"5\"></circle>") =
      str "<svg><circle cx=\"5\"></ci</g></svg>" ∧
    fixTruncatedSvg (str "<svg><circle cx=\"5\"></circle>") ≠
      str "<svg><circle cx=\"5\"></circle></g></svg>" := by
  refine ⟨by decide, by decide⟩

/-- Claim C4 (counterexample): `"hello"` is non-empty and nowhere contains
`<svg`, yet `validateSvg` reports it valid instead of the claimed
missing-open-tag failure — validation runs on the auto-fixed text, which
wraps the fragment in a complete default root element. -/
theorem c4_counterexample :
    str "hello" ≠ [] ∧ ¬ ((str "<svg") <:+: str "hello") ∧
    validateSvg (str "hello") = ⟨true, none⟩ := by
  refine ⟨by decide, by decide, by decide⟩

/-- Claim C4 (amended): the five checks run in the stated short-circuit order
but on the auto-fixed text, which always contains both root tags; hence for
every non-empty input — in particular one nowhere containing `<svg` — the
missing-open-tag and missing-close-tag failures are unreachable. -/
theorem c4_no_missing_tag_errors (s : List Char) (hne : s ≠ []) :
    (validateSvg s).error ≠ some (str "Missing <svg> tag") ∧
    (validateSvg s).error ≠ some (str "Missing closing </svg> tag") :=
  validateSvg_error_cases s hne

theorem c4_no_missing_tag_errors_witness :
    (str "xy" ≠ []) ∧
    ((validateSvg (str "xy")).error ≠ some (str "Missing <svg> tag") ∧
     (validateSvg (str "xy")).error ≠ some (str "Missing closing </svg> tag")) :=
  ⟨by decide, c4_no_missing_tag_errors (str "xy") (by decide)⟩

/-- Claim C5 (counterexample): the input `<SVG<svg` contains no `</svg>`, yet
`autoFixSvg` appends one closing tag (the lower-case `<svg` is present) and
then wraps the whole text (it does not start with lower-case `<svg`), so the
output contains two occurrences of `</svg>`, not exactly one. -/
theorem c5_counterexample :
    ¬ ((str "</svg>") <:+: str "<SVG<svg") ∧
    countSub (str "</svg>") (autoFixSvg (str "<SVG<svg")) = 2 := by
  refine ⟨by decide, by decide⟩

/-- Claim C5 (amended): for every input missing the closing root tag,
`autoFixSvg` produces output that ends with the closing root tag (the tag may
occur more than once when both the append step and the wrap step fire). -/
theorem c5_normalize_ends_with_close (s : List Char)
    (h : ¬ ((str "</svg>") <:+: s)) : (str "</svg>") <:+ autoFixSvg s :=
  autoFixSvg_endsWith s

theorem c5_normalize_ends_with_close_witness :
    ¬ ((str "</svg>") <:+: str "abc") ∧ (str "</svg>") <:+ autoFixSvg (str "abc") :=
  ⟨by decide, c5_normalize_ends_with_close (str "abc") (by decide)⟩

/-- Claim C6 (counterexample): an input that carries all the required
attributes inside a script element followed by a complete root element.  The
first sanitize pass removes the script, exposing a leading space that the
second pass trims away, so `sanitize (sanitize x) ≠ sanitize x`. -/
theorem c6_counterexample :
    (xmlnsAttr <:+:
      str "<script></script> <svg xmlns=\"http://www.w3.org/2000/svg\" viewBox=\"0 0 400 400\" width=\"400\" height=\"400\"></svg>") ∧
    ((str "viewBox") <:+:
      str "<script></script> <svg xmlns=\"http://www.w3.org/2000/svg\" viewBox=\"0 0 400 400\" width=\"400\" height=\"400\"></svg>") ∧
    ((str "width=") <:+:
      str "<script></script> <svg xmlns=\"http://www.w3.org/2000/svg\" viewBox=\"0 0 400 400\" width=\"400\" height=\"400\"></svg>") ∧
    ((str "height=") <:+:
      str "<script></script> <svg xmlns=\"http://www.w3.org/2000/svg\" viewBox=\"0 0 400 400\" width=\"400\" height=\"400\"></svg>") ∧
    sanitizeSvg (sanitizeSvg
      (str "<script></script> <svg xmlns=\"http://www.w3.org/2000/svg\" viewBox=\"0 0 400 400\" width=\"400\" height=\"400\"></svg>")) ≠
    sanitizeSvg
      (str "<script></script> <svg xmlns=\"http://www.w3.org/2000/svg\" viewBox=\"0 0 400 400\" width=\"400\" height=\"400\"></svg>") := by
  refine ⟨by decide, by decide, by decide, by decide, by decide⟩

/-- Claim C6 (amended): `sanitizeSvg` is idempotent on inputs that already
carry the namespace, viewBox and width/height attributes and contain no
(case-insensitive) script element. -/
theorem c6_sanitize_idem (x : List Char)
    (h1 : xmlnsAttr <:+: x) (h2 : (str "viewBox") <:+: x)
    (h3 : (str "width=") <:+: x) (h4 : (str "height=") <:+: x)
    (h5 : ¬ ((str "<script").map lowerAscii <:+: x.map lowerAscii)) :
    sanitizeSvg (sanitizeSvg x) = sanitizeSvg x :=
  sanitizeSvg_idem_of_attrs h1 h2 h3 h4 h5

theorem c6_sanitize_idem_witness :
    (xmlnsAttr <:+:
      str "<svg xmlns=\"http://www.w3.org/2000/svg\" viewBox=\"0 0 400 400\" width=\"400\" height=\"400\"></svg>") ∧
    sanitizeSvg (sanitizeSvg
      (str "<svg xmlns=\"http://www.w3.org/2000/svg\" viewBox=\"0 0 400 400\" width=\"400\" height=\"400\"></svg>")) =
    sanitizeSvg
      (str "<svg xmlns=\"http://www.w3.org/2000/svg\" viewBox=\"0 0 400 400\" width=\"400\" height=\"400\"></svg>") :=
  ⟨by decide,
    c6_sanitize_idem _ (by decide) (by decide) (by decide) (by decide) (by decide)⟩

/-- Claim C7 (counterexample): markup with two groups of class `highlight`.
`generateSvgVariations` targets the literal selector text
`<g[class*="highlight"]`, which does not occur, so NO animation fragment is
injected for the class — not "exactly one at the first occurrence"; only the
root style changes and both elements are untouched. -/
theorem c7_counterexample :
    countSub (str "<g class=\"highlight\"")
      (str "<svg xmlns=\"http://www.w3.org/2000/svg\"><g class=\"highlight\">A</g><g class=\"highlight\">B</g></svg>") = 2 ∧
    generateSvgVariations
      (str "<svg xmlns=\"http://www.w3.org/2000/svg\"><g class=\"highlight\">A</g><g class=\"highlight\">B</g></svg>")
      SvgKind.workflow =
      [replaceFirstSub (str "<svg") workflowStyle
        (str "<svg xmlns=\"http://www.w3.org/2000/svg\"><g class=\"highlight\">A</g><g class=\"highlight\">B</g></svg>")] ∧
    ¬ (presetWorkflowHighlight <:+:
      (replaceFirstSub (str "<svg") workflowStyle
        (str "<svg xmlns=\"http://www.w3.org/2000/svg\"><g class=\"highlight\">A</g><g class=\"highlight\">B</g></svg>"))) := by
  refine ⟨by decide, by decide, by decide⟩

/-- Claim C7 (amended): for workflow markup whose animatable elements are
written as ordinary class attributes (so none of the literal target patterns
`<path`, `<circle`, `<text`, `<g[class*="highlight"]` occurs — in particular
for documents with two elements of the same animatable class),
`generateSvgVariations` injects no animation fragment at all: both elements
are left unchanged and only the first `<svg` receives the style attribute. -/
theorem c7_class_targets_never_injected (x : List Char)
    (hp : ¬ (str "<path") <:+: x) (hc : ¬ (str "<circle") <:+: x)
    (ht : ¬ (str "<text") <:+: x)
    (hg : ¬ (str "<g[class*=\"highlight\"]") <:+: x) :
    generateSvgVariations x SvgKind.workflow =
      [replaceFirstSub (str "<svg") workflowStyle x] :=
  genVar_workflow_untouched hp hc ht hg

theorem c7_class_targets_never_injected_witness :
    (¬ ((str "<path") <:+:
      str "<svg><g class=\"rotate\">A</g><g class=\"rotate\">B</g></svg>")) ∧
    generateSvgVariations
      (str "<svg><g class=\"rotate\">A</g><g class=\"rotate\">B</g></svg>")
      SvgKind.workflow =
      [replaceFirstSub (str "<svg") workflowStyle
        (str "<svg><g class=\"rotate\">A</g><g class=\"rotate\">B</g></svg>")] :=
  ⟨by decide,
    c7_class_targets_never_injected _ (by decide) (by decide) (by decide) (by decide)⟩

/-- Claim C8: `autoFixSvg` is total and fails soft — for every input it
terminates (it is a total function of this development) and returns some
string; the returned string is moreover never empty. -/
theorem c8_autoFixSvg_total (s : List Char) :
    ∃ t : List Char, autoFixSvg s = t ∧ t ≠ [] :=
  ⟨autoFixSvg s, rfl, by
    unfold autoFixSvg
    exact autoFixTail_ne_nil _⟩

/-- Claim C9: the LLM client issues no request and fails with the
configuration error when no API key is set; with a key it makes exactly one
request (the second component counts issued requests — never more than one,
no retry), failing with an upstream error that carries the provider's
`error.message` (or `statusText` when that is missing or empty). -/
theorem c9_llm_client_single_attempt (env : LLMEnv) :
    (callOpenRouterAPIModel env).2 = (if env.apiKeyPresent then 1 else 0) ∧
    (callOpenRouterAPIModel env).1 =
      (if env.apiKeyPresent then
        (if env.respOk then Except.ok env.content
         else Except.error ⟨500, str "OpenRouter API error: " ++
            jsOrStr env.respErrMessage env.statusText⟩)
       else Except.error ⟨500, str "OpenRouter API key is not configured"⟩) := by
  unfold callOpenRouterAPIModel callOpenRouterInner
  rcases env with ⟨key, ok, msg, st, content⟩
  have hne : str "OpenRouter API error: " ++ jsOrStr msg st ≠ [] := by
    intro h
    rcases List.append_eq_nil.mp h with ⟨h1, _⟩
    exact absurd h1 (by decide)
  cases key <;> cases ok <;> simp [jsOrStr, hne]
  intro h1 h2
  exact absurd h1 (by decide)

/-- Claim C10 (counterexample): the implicit claim fails on inputs containing
backticks: `<sv```g` is non-empty and nowhere contains `<svg`, but the
markdown-fence removal inside `autoFixSvg` deletes the three backticks and
synthesizes an opening tag, so the text is not wrapped and validation fails
with `Invalid SVG structure`. -/
theorem c10_counterexample :
    str "<sv```g" ≠ [] ∧ ¬ ((str "<svg") <:+: str "<sv```g") ∧
    (validateSvg (str "<sv```g")).isValid = false := by
  refine ⟨by decide, by decide, by decide⟩

/-- Claim C10 (amended): for every non-empty input that nowhere contains
`<svg` and contains no backtick character, the auto-fix wraps the fragment in
the complete default root element and `validateSvg` reports it valid with no
error. -/
theorem c10_non_markup_passes_validation (s : List Char) (hne : s ≠ [])
    (hs : ¬ ((str "<svg") <:+: s)) (hb : ('\x60' : Char) ∉ s) :
    validateSvg s = ⟨true, none⟩ :=
  validateSvg_no_open hne hs hb

theorem c10_non_markup_passes_validation_witness :
    (str "some plain prose" ≠ []) ∧
    validateSvg (str "some plain prose") = ⟨true, none⟩ :=
  ⟨by decide,
    c10_non_markup_passes_validation (str "some plain prose")
      (by decide) (by decide) (by decide)⟩
